import Mathlib

/-!
Verification of the Yoshikei session client
(`custom_components/yoshikei/const.py`).

The client is embedded shallowly: HTTP traffic is modelled by an oracle
(`Server`) giving the response to the i-th login POST and the i-th
schedule POST, and each coroutine of the Python class `Yoshikei` becomes
a pure function threading an explicit session state (`SessState`) that
counts the calls made so far.  Python exceptions become an `Except PyErr`
result; `datetime.date` values become proleptic-Gregorian ordinals
(`Nat`), computed exactly as CPython's `date.toordinal`.
-/

namespace Yoshikei

/-- Python exception kinds the client can raise: `InvalidAuth` (the
integration's own error class), `TypeError` (e.g. subscripting `None`),
`ValueError` (e.g. `date.fromisoformat` on a malformed string), and
JSON/content-type decode failures. -/
inductive PyErr where
  | invalidAuth
  | typeError
  | valueError
  | jsonError
  deriving DecidableEq

/-- One entry of a day's `orderitems` list, with the keys the code reads:
`itemname`, `menuname`, `link`. -/
structure OrderItem where
  itemname : String
  menuname : String
  link : String
  deriving DecidableEq

/-- One raw row of the server's `resultlist`, before `get_data`
normalises it: `deliverydate` is still the server's free-form string. -/
structure RawScheduleDay where
  deliverydate : String
  orderitems : List OrderItem
  deriving DecidableEq

/-- A row after `get_data`'s normalisation loop: `deliverydate` is now a
`datetime.date`, i.e. an ordinal. -/
structure ScheduleDay where
  deliverydate : Nat
  orderitems : List OrderItem
  deriving DecidableEq

/-- The Home Assistant `CalendarEvent` fields the code fills in. -/
structure CalendarEvent where
  start : Nat
  «end» : Nat
  summary : String
  description : String
  location : String
  uid : String
  deriving DecidableEq

/-- The parsed JSON body of the login POST: the code only reads the
`errorcode` field. -/
structure LoginData where
  errorcode : String
  deriving DecidableEq

/-- A login response: `body` is the outcome of parsing the response body
as JSON (despite its `text/html` content type) and reading `errorcode`;
an `error` value models a body that fails to decode. -/
structure LoginResp where
  body : Except PyErr LoginData

/-- A schedule response: `historyLen` is the length of
`response.history` (the redirect history), and `body` is the outcome of
parsing the body as JSON and reading its `resultlist` field. -/
structure FetchResp where
  historyLen : Nat
  body : Except PyErr (List RawScheduleDay)

/-- The server oracle: the response to the i-th login POST, and the
response to the i-th schedule POST given the anchor date it was sent
(as an ordinal). -/
structure Server where
  loginResp : Nat → LoginResp
  fetchResp : Nat → Nat → FetchResp

/-- Session state: how many login POSTs (`authenticate` calls) and how
many schedule POSTs (`__get_data` calls) have been issued so far. -/
structure SessState where
  authCalls : Nat
  fetchCalls : Nat
  deriving DecidableEq

/-! ## Dates (CPython `datetime.date`) -/

/-- Gregorian leap year, as in CPython `datetime._is_leap`. -/
def isLeap (y : Nat) : Bool :=
  y % 4 == 0 && (y % 100 != 0 || y % 400 == 0)

/-- Number of days in month `m` of year `y` (CPython
`datetime._days_in_month`). -/
def daysInMonth (y m : Nat) : Nat :=
  if m = 2 then (if isLeap y then 29 else 28)
  else if m = 4 ∨ m = 6 ∨ m = 9 ∨ m = 11 then 30
  else 31

/-- Days in year `y` before the first of month `m` (CPython
`datetime._days_before_month`). -/
def daysBeforeMonth (y m : Nat) : Nat :=
  List.foldl (fun acc i => acc + daysInMonth y (i + 1)) 0 (List.range (m - 1))

/-- Proleptic-Gregorian ordinal of the date `y-m-d`, with day 1 being
0001-01-01, exactly as CPython `date.toordinal`. -/
def toOrdinal (y m d : Nat) : Nat :=
  (y - 1) * 365 + (y - 1) / 4 - (y - 1) / 100 + (y - 1) / 400
    + daysBeforeMonth y m + d

/-- The range checks performed by the `date` constructor. -/
def validDate (y m d : Nat) : Bool :=
  1 ≤ y && y ≤ 9999 && 1 ≤ m && m ≤ 12 && 1 ≤ d && d ≤ daysInMonth y m

/-- Numeric value of a digit string (most significant first). -/
def parseDigits (cs : List Char) : Nat :=
  List.foldl (fun a c => a * 10 + (c.toNat - 48)) 0 cs

/-- CPython `date.fromisoformat` restricted to the `YYYY-MM-DD` shape:
exactly ten characters, dashes in positions 4 and 7, digits elsewhere,
and the resulting numbers a valid date; anything else raises
`ValueError`. -/
def date_fromisoformat (s : String) : Except PyErr Nat :=
  match s.data with
  | [y1, y2, y3, y4, h1, m1, m2, h2, d1, d2] =>
    if y1.isDigit && y2.isDigit && y3.isDigit && y4.isDigit
        && h1 == '-' && m1.isDigit && m2.isDigit
        && h2 == '-' && d1.isDigit && d2.isDigit then
      let y := parseDigits [y1, y2, y3, y4]
      let m := parseDigits [m1, m2]
      let d := parseDigits [d1, d2]
      if validDate y m d then Except.ok (toOrdinal y m d)
      else Except.error PyErr.valueError
    else Except.error PyErr.valueError
  | _ => Except.error PyErr.valueError

/-! ## The regex substitution in `get_data`

`re.sub(r"(\d+)/(\d+)/(\d+) .*", "\1-\2-\3", s, 1)` rewrites the
leftmost match of the pattern.  The pattern is deterministic: each
`\d+` grabs a maximal digit run (the following literal is never a
digit), and `.*` grabs everything up to the next newline. -/

/-- Consume one expected literal character from the head of a list. -/
def expectChar (c : Char) : List Char → Option (List Char)
  | x :: rest => if x = c then some rest else none
  | [] => none

/-- Try to match `(\d+)/(\d+)/(\d+) .*` at the head of `cs`; on success
return the three digit groups and the characters left after the match
(the suffix from the first newline onwards, since `.` excludes
newlines).  Each `\d+` takes a maximal digit run — the regex engine's
backtracking never helps here because each group is followed by a
non-digit literal. -/
def matchDatePat (cs : List Char) : Option (List Char × List Char × List Char × List Char) :=
  let g1 := cs.takeWhile Char.isDigit
  if g1 = [] then none else
  match expectChar '/' (cs.dropWhile Char.isDigit) with
  | none => none
  | some r2 =>
    let g2 := r2.takeWhile Char.isDigit
    if g2 = [] then none else
    match expectChar '/' (r2.dropWhile Char.isDigit) with
    | none => none
    | some r4 =>
      let g3 := r4.takeWhile Char.isDigit
      if g3 = [] then none else
      match expectChar ' ' (r4.dropWhile Char.isDigit) with
      | none => none
      | some r6 => some (g1, g2, g3, r6.dropWhile (fun c => c ≠ '\n'))

/-- Scan for the leftmost match of the date pattern and replace it by
`group1-group2-group3`; `none` when the pattern matches nowhere. -/
def reSubDateAux : List Char → Option (List Char)
  | [] => none
  | c :: cs =>
    match matchDatePat (c :: cs) with
    | some (g1, g2, g3, rest) => some (g1 ++ '-' :: (g2 ++ '-' :: (g3 ++ rest)))
    | none => (reSubDateAux cs).map (fun l => c :: l)

/-- `re.sub(r"(\d+)/(\d+)/(\d+) .*", "\1-\2-\3", s, 1)`: the string with
its leftmost pattern match rewritten, or `s` unchanged if there is no
match. -/
def re_sub_date (s : String) : String :=
  match reSubDateAux s.data with
  | some l => ⟨l⟩
  | none => s

/-- The per-row normalisation in `get_data`'s loop: rewrite the raw
`deliverydate` string and parse it with `date.fromisoformat`. -/
def normalize_deliverydate (s : String) : Except PyErr Nat :=
  date_fromisoformat (re_sub_date s)

/-- `get_data`'s normalisation loop over the whole `resultlist`:
replaces each row's `deliverydate` by its parsed date, propagating the
first exception. -/
def normalizeRows (rows : List RawScheduleDay) : Except PyErr (List ScheduleDay) :=
  rows.mapM fun r =>
    (normalize_deliverydate r.deliverydate).map fun n => ⟨n, r.orderitems⟩

/-! ## The client operations -/

/-- Session state after one more login POST. -/
def afterLogin (s : SessState) : SessState :=
  { s with authCalls := s.authCalls + 1 }

/-- Session state after one more schedule POST. -/
def afterFetch (s : SessState) : SessState :=
  { s with fetchCalls := s.fetchCalls + 1 }

/-- `Yoshikei.authenticate`: issue the login POST (consuming the next
login response); parse its body; raise `InvalidAuth` when `errorcode`
is non-empty, otherwise return `errorcode == ""`. -/
def authenticate (o : Server) (s : SessState) : Except PyErr Bool × SessState :=
  match (o.loginResp s.authCalls).body with
  | Except.error e => (Except.error e, afterLogin s)
  | Except.ok data =>
    if data.errorcode ≠ "" then (Except.error PyErr.invalidAuth, afterLogin s)
    else (Except.ok (data.errorcode == ""), afterLogin s)

/-- `Yoshikei.__get_data`: issue the schedule POST anchored at `d`
(consuming the next fetch response); raise `InvalidAuth` when the
redirect history is non-empty, otherwise parse the body and return its
`resultlist`. -/
def get_data_inner (o : Server) (d : Nat) (s : SessState) :
    Except PyErr (List RawScheduleDay) × SessState :=
  if (o.fetchResp s.fetchCalls d).historyLen ≠ 0 then
    (Except.error PyErr.invalidAuth, afterFetch s)
  else ((o.fetchResp s.fetchCalls d).body, afterFetch s)

/-- `Yoshikei.get_data`: call `__get_data`; on `InvalidAuth` (and only
on `InvalidAuth`) call `authenticate` and retry `__get_data` once; then
run the `deliverydate` normalisation loop on the rows obtained. -/
def get_data (o : Server) (d : Nat) (s : SessState) :
    Except PyErr (List ScheduleDay) × SessState :=
  match get_data_inner o d s with
  | (Except.ok rows, s1) => (normalizeRows rows, s1)
  | (Except.error PyErr.invalidAuth, s1) =>
    match authenticate o s1 with
    | (Except.error e, s2) => (Except.error e, s2)
    | (Except.ok _, s2) =>
      match get_data_inner o d s2 with
      | (Except.ok rows, s3) => (normalizeRows rows, s3)
      | (Except.error e, s3) => (Except.error e, s3)
  | (Except.error e, s1) => (Except.error e, s1)

/-- `next((item for item in data if item["deliverydate"] == start), None)`:
the first row whose date equals `d`. -/
def findDay (data : List ScheduleDay) (d : Nat) : Option ScheduleDay :=
  data.find? fun r => r.deliverydate == d

/-- The `CalendarEvent`s built from one matched day: one per order item,
in list order, with the field mapping of the source. -/
def eventsOfDay (day : ScheduleDay) : List CalendarEvent :=
  day.orderitems.map fun item =>
    { start := day.deliverydate
      «end» := day.deliverydate
      summary := item.itemname
      description := "https://www2.yoshikei-dvlp.co.jp/webodr/apl/10/" ++ item.link
      location := item.menuname
      uid := item.link }

/-- The `while start <= end` loop of `get_events`, with the remaining
iteration count made explicit: `fuel` is `end + 1 - cur`, so the body
runs exactly for the days `cur ≤ end`.  A day absent from `data` causes
a supplementary `get_data` fetch anchored at that day; if the day is
still absent, the source subscripts `None` and raises `TypeError`. -/
def get_events_loop (o : Server) :
    Nat → Nat → List ScheduleDay → List CalendarEvent → SessState →
    Except PyErr (List CalendarEvent) × SessState
  | 0, _, _, events, s => (Except.ok events, s)
  | fuel + 1, cur, data, events, s =>
    match findDay data cur with
    | some day => get_events_loop o fuel (cur + 1) data (events ++ eventsOfDay day) s
    | none =>
      match get_data o cur s with
      | (Except.error e, s1) => (Except.error e, s1)
      | (Except.ok newRows, s1) =>
        match findDay (data ++ newRows) cur with
        | some day =>
          get_events_loop o fuel (cur + 1) (data ++ newRows) (events ++ eventsOfDay day) s1
        | none => (Except.error PyErr.typeError, s1)

/-- `Yoshikei.get_events`: fetch one window anchored at `start`, then
walk the days of `[start, fin]` inclusive accumulating events. -/
def get_events (o : Server) (start fin : Nat) (s : SessState) :
    Except PyErr (List CalendarEvent) × SessState :=
  match get_data o start s with
  | (Except.error e, s1) => (Except.error e, s1)
  | (Except.ok data, s1) => get_events_loop o (fin + 1 - start) start data [] s1

/-! ## Small facts about the session-state bumps -/

@[simp]
theorem afterLogin_authCalls (s : SessState) : (afterLogin s).authCalls = s.authCalls + 1 := rfl

@[simp]
theorem afterLogin_fetchCalls (s : SessState) : (afterLogin s).fetchCalls = s.fetchCalls := rfl

@[simp]
theorem afterFetch_authCalls (s : SessState) : (afterFetch s).authCalls = s.authCalls := rfl

@[simp]
theorem afterFetch_fetchCalls (s : SessState) : (afterFetch s).fetchCalls = s.fetchCalls + 1 := rfl

/-! ## Concrete servers used in scenario theorems and witnesses -/

/-- A server that always authenticates successfully (`errorcode` empty)
and always answers schedule POSTs with an empty `resultlist` and no
redirect. -/
def oEmpty : Server :=
  { loginResp := fun _ => ⟨Except.ok ⟨""⟩⟩
    fetchResp := fun _ _ => ⟨0, Except.ok []⟩ }

/-- A server whose every schedule response carries a redirect history of
length 1 together with an undecodable body. -/
def oRedir : Server :=
  { loginResp := fun _ => ⟨Except.ok ⟨""⟩⟩
    fetchResp := fun _ _ => ⟨1, Except.error PyErr.jsonError⟩ }

/-- A server whose first schedule response is a redirect (expired
session) and whose later ones succeed with an empty `resultlist`. -/
def oRetry : Server :=
  { loginResp := fun _ => ⟨Except.ok ⟨""⟩⟩
    fetchResp := fun i _ => if i = 0 then ⟨1, Except.ok []⟩ else ⟨0, Except.ok []⟩ }

/-- The ordinal of 2024-05-03. -/
def dMay3 : Nat := toOrdinal 2024 5 3

/-- A raw schedule row for 2024-05-03 carrying two order items. -/
def rawMay3 : RawScheduleDay :=
  ⟨"2024/05/03 00:00:00",
   [⟨"item one", "menu one", "link1"⟩, ⟨"item two", "menu two", "link2"⟩]⟩

/-- A server whose every schedule response is exactly the one row
`rawMay3`, with no redirect. -/
def oMay3 : Server :=
  { loginResp := fun _ => ⟨Except.ok ⟨""⟩⟩
    fetchResp := fun _ _ => ⟨0, Except.ok [rawMay3]⟩ }

/-! ## Claims -/

/-- Claim C4: `authenticate` returns `True` exactly when the login
response's `errorcode` field is the empty string, and raises
`InvalidAuth` on every response whose `errorcode` is non-empty. -/
theorem authenticate_errorcode_spec (o : Server) (s : SessState) (ld : LoginData)
    (hld : (o.loginResp s.authCalls).body = Except.ok ld) :
    ((authenticate o s).1 = Except.ok true ↔ ld.errorcode = "")
      ∧ (ld.errorcode ≠ "" → (authenticate o s).1 = Except.error PyErr.invalidAuth) := by
  unfold authenticate
  rw [hld]
  by_cases h : ld.errorcode = "" <;> simp [h]

/-- Witness for C4: a login response with empty `errorcode` makes
`authenticate` return `True`. -/
theorem authenticate_errorcode_spec_witness :
    ((authenticate oEmpty ⟨0, 0⟩).1 = Except.ok true ↔ (LoginData.mk "").errorcode = "")
      ∧ ((LoginData.mk "").errorcode ≠ "" →
          (authenticate oEmpty ⟨0, 0⟩).1 = Except.error PyErr.invalidAuth) :=
  authenticate_errorcode_spec oEmpty ⟨0, 0⟩ ⟨""⟩ rfl

/-- Claim C10: `authenticate` can never return `False`: any response
whose body decodes leads either to an `InvalidAuth` exception or to the
return value `True`. -/
theorem authenticate_never_false (o : Server) (s : SessState) :
    (authenticate o s).1 ≠ Except.ok false
      ∧ (∀ ld, (o.loginResp s.authCalls).body = Except.ok ld →
          (authenticate o s).1 = Except.error PyErr.invalidAuth
            ∨ (authenticate o s).1 = Except.ok true) := by
  unfold authenticate
  constructor
  · cases hb : (o.loginResp s.authCalls).body with
    | error e => simp [hb]
    | ok ld =>
      by_cases h : ld.errorcode = "" <;> simp [hb, h]
  · intro ld hld
    rw [hld]
    by_cases h : ld.errorcode = "" <;> simp [h]

/-- Witness for C10 at a concrete server and state. -/
theorem authenticate_never_false_witness :
    (authenticate oEmpty ⟨1, 5⟩).1 = Except.error PyErr.invalidAuth
      ∨ (authenticate oEmpty ⟨1, 5⟩).1 = Except.ok true :=
  (authenticate_never_false oEmpty ⟨1, 5⟩).2 ⟨""⟩ rfl

/-- Claim C5: a schedule fetch with a non-empty redirect history raises
`InvalidAuth` without looking at the body, and one with an empty
redirect history returns exactly the outcome of parsing the body's
`resultlist`. -/
theorem get_data_inner_redirect_spec (o : Server) (d : Nat) (s : SessState) :
    ((o.fetchResp s.fetchCalls d).historyLen ≠ 0 →
        (get_data_inner o d s).1 = Except.error PyErr.invalidAuth)
      ∧ ((o.fetchResp s.fetchCalls d).historyLen = 0 →
        (get_data_inner o d s).1 = (o.fetchResp s.fetchCalls d).body) := by
  unfold get_data_inner
  constructor <;> intro h <;> simp [h]

/-- Witness for C5: a redirected response with an undecodable body
still raises `InvalidAuth`. -/
theorem get_data_inner_redirect_spec_witness :
    (get_data_inner oRedir 5 ⟨0, 0⟩).1 = Except.error PyErr.invalidAuth :=
  (get_data_inner_redirect_spec oRedir 5 ⟨0, 0⟩).1 (by decide)

/-- Claim C6 scenario: `get_events` over the single day 2024-05-03,
when the fetched data holds one matching row with two order items,
returns exactly the two corresponding events (start = end = the day,
summary = `itemname`, location = `menuname`, uid = `link`, description =
base URL ++ `link`), after a single fetch and no authentication. -/
theorem get_events_two_items_scenario :
    get_events oMay3 dMay3 dMay3 ⟨0, 0⟩ =
      (Except.ok
        [{ start := dMay3, «end» := dMay3, summary := "item one",
           description := "https://www2.yoshikei-dvlp.co.jp/webodr/apl/10/link1",
           location := "menu one", uid := "link1" },
         { start := dMay3, «end» := dMay3, summary := "item two",
           description := "https://www2.yoshikei-dvlp.co.jp/webodr/apl/10/link2",
           location := "menu two", uid := "link2" }],
       ⟨0, 1⟩) := by
  rfl

/-- Claim C1 (code bug): when a day of the range is absent from the
fetched data even after the supplementary fetch, `get_events` does not
skip it silently — the source subscripts `None` and raises `TypeError`.
Here the server always returns an empty `resultlist`, and the request
for the single day 2024-05-03 ends in `TypeError` after two fetches. -/
theorem get_events_missing_day_raises :
    get_events oEmpty dMay3 dMay3 ⟨0, 0⟩ = (Except.error PyErr.typeError, ⟨0, 2⟩) := by
  rfl

/-- Claim C2: when the first schedule fetch inside `get_data` raises
`InvalidAuth` (redirect detected), `authenticate` runs exactly once and
the fetch is retried exactly once: a failed re-authentication or a
second `InvalidAuth` propagates with exactly one retry fetch issued,
and a successful retry yields the normalised rows as if nothing had
failed. -/
theorem get_data_retry_once (o : Server) (d : Nat) (s : SessState)
    (h1 : (o.fetchResp s.fetchCalls d).historyLen ≠ 0) :
    (get_data o d s).2.authCalls = s.authCalls + 1
      ∧ (∀ e, (o.loginResp s.authCalls).body = Except.error e →
          (get_data o d s).1 = Except.error e
            ∧ (get_data o d s).2.fetchCalls = s.fetchCalls + 1)
      ∧ (∀ ld, (o.loginResp s.authCalls).body = Except.ok ld → ld.errorcode ≠ "" →
          (get_data o d s).1 = Except.error PyErr.invalidAuth
            ∧ (get_data o d s).2.fetchCalls = s.fetchCalls + 1)
      ∧ (∀ ld, (o.loginResp s.authCalls).body = Except.ok ld → ld.errorcode = "" →
          (get_data o d s).2.fetchCalls = s.fetchCalls + 2
            ∧ ((o.fetchResp (s.fetchCalls + 1) d).historyLen ≠ 0 →
                (get_data o d s).1 = Except.error PyErr.invalidAuth)
            ∧ (∀ rows, (o.fetchResp (s.fetchCalls + 1) d).historyLen = 0 →
                (o.fetchResp (s.fetchCalls + 1) d).body = Except.ok rows →
                (get_data o d s).1 = normalizeRows rows)) := by
  have hinner : get_data_inner o d s = (Except.error PyErr.invalidAuth, afterFetch s) := by
    unfold get_data_inner
    rw [if_pos h1]
  cases hauth : (o.loginResp s.authCalls).body with
  | error e =>
    have hA : authenticate o (afterFetch s) = (Except.error e, afterLogin (afterFetch s)) := by
      unfold authenticate
      rw [show (afterFetch s).authCalls = s.authCalls from rfl, hauth]
    have hg : get_data o d s = (Except.error e, afterLogin (afterFetch s)) := by
      simp only [get_data, hinner, hA]
    refine ⟨by simp [hg], ?_, ?_, ?_⟩
    · intro e2 he2
      injection he2 with he2
      subst he2
      exact ⟨by rw [hg], by simp [hg]⟩
    · intro ld hld
      exact absurd hld (by simp)
    · intro ld hld
      exact absurd hld (by simp)
  | ok ld =>
    by_cases hec : ld.errorcode = ""
    · have hA : authenticate o (afterFetch s) = (Except.ok true, afterLogin (afterFetch s)) := by
        unfold authenticate
        rw [show (afterFetch s).authCalls = s.authCalls from rfl, hauth]
        simp [hec]
      by_cases hh2 : (o.fetchResp (s.fetchCalls + 1) d).historyLen = 0
      · have hinner2 : get_data_inner o d (afterLogin (afterFetch s)) =
            ((o.fetchResp (s.fetchCalls + 1) d).body, afterFetch (afterLogin (afterFetch s))) := by
          unfold get_data_inner
          rw [show (afterLogin (afterFetch s)).fetchCalls = s.fetchCalls + 1 from rfl,
            if_neg (by simp [hh2])]
        cases hb2 : (o.fetchResp (s.fetchCalls + 1) d).body with
        | error e2 =>
          have hg : get_data o d s = (Except.error e2, afterFetch (afterLogin (afterFetch s))) := by
            simp only [get_data, hinner, hA, hinner2, hb2]
          refine ⟨by simp [hg], ?_, ?_, ?_⟩
          · intro e3 he3
            exact absurd he3 (by simp)
          · intro ld2 hld2 hec2
            injection hld2 with hld2
            subst hld2
            exact absurd hec hec2
          · intro ld2 hld2 _
            refine ⟨by simp [hg], fun hcon => absurd hh2 hcon, ?_⟩
            intro rows _ hrows
            exact absurd hrows (by simp)
        | ok rows =>
          have hg : get_data o d s =
              (normalizeRows rows, afterFetch (afterLogin (afterFetch s))) := by
            simp only [get_data, hinner, hA, hinner2, hb2]
          refine ⟨by simp [hg], ?_, ?_, ?_⟩
          · intro e3 he3
            exact absurd he3 (by simp)
          · intro ld2 hld2 hec2
            injection hld2 with hld2
            subst hld2
            exact absurd hec hec2
          · intro ld2 hld2 _
            refine ⟨by simp [hg], fun hcon => absurd hh2 hcon, ?_⟩
            intro rows2 _ hrows2
            injection hrows2 with hrows2
            subst hrows2
            rw [hg]
      · have hinner2 : get_data_inner o d (afterLogin (afterFetch s)) =
            (Except.error PyErr.invalidAuth, afterFetch (afterLogin (afterFetch s))) := by
          unfold get_data_inner
          rw [show (afterLogin (afterFetch s)).fetchCalls = s.fetchCalls + 1 from rfl,
            if_pos (by simpa using hh2)]
        have hg : get_data o d s =
            (Except.error PyErr.invalidAuth, afterFetch (afterLogin (afterFetch s))) := by
          simp only [get_data, hinner, hA, hinner2]
        refine ⟨by simp [hg], ?_, ?_, ?_⟩
        · intro e3 he3
          exact absurd he3 (by simp)
        · intro ld2 hld2 hec2
          injection hld2 with hld2
          subst hld2
          exact absurd hec hec2
        · intro ld2 hld2 _
          refine ⟨by simp [hg], fun _ => by rw [hg], ?_⟩
          intro rows hcon _
          exact absurd hcon hh2
    · have hA : authenticate o (afterFetch s) =
          (Except.error PyErr.invalidAuth, afterLogin (afterFetch s)) := by
        unfold authenticate
        rw [show (afterFetch s).authCalls = s.authCalls from rfl, hauth]
        simp [hec]
      have hg : get_data o d s = (Except.error PyErr.invalidAuth, afterLogin (afterFetch s)) := by
        simp only [get_data, hinner, hA]
      refine ⟨by simp [hg], ?_, ?_, ?_⟩
      · intro e3 he3
        exact absurd he3 (by simp)
      · intro ld2 hld2 _
        exact ⟨by rw [hg], by simp [hg]⟩
      · intro ld2 hld2 hec2
        injection hld2 with hld2
        subst hld2
        exact absurd hec2 hec

/-- Witness for C2: the server `oRetry` redirects the first fetch; one
authentication and one retry happen, and the recovered result is the
normalised empty list. -/
theorem get_data_retry_once_witness :
    (get_data oRetry 5 ⟨0, 0⟩).2.authCalls = 0 + 1
      ∧ (get_data oRetry 5 ⟨0, 0⟩).2.fetchCalls = 0 + 2
      ∧ (get_data oRetry 5 ⟨0, 0⟩).1 = normalizeRows [] := by
  have h := get_data_retry_once oRetry 5 ⟨0, 0⟩ (by decide)
  have h4 := h.2.2.2 ⟨""⟩ rfl rfl
  exact ⟨h.1, h4.1, h4.2.2 [] (by decide) rfl⟩

/-- Claim C8: a day of the range whose matching `ScheduleDay` has an
empty `orderitems` list contributes no events and raises no error: the
loop step for that day leaves the accumulated events unchanged and
moves on to the next day. -/
theorem get_events_empty_day_skips (o : Server) (fuel cur : Nat) (data : List ScheduleDay)
    (events : List CalendarEvent) (s : SessState) (row : ScheduleDay)
    (hfind : findDay data cur = some row) (hempty : row.orderitems = []) :
    get_events_loop o (fuel + 1) cur data events s
      = get_events_loop o fuel (cur + 1) data events s := by
  simp only [get_events_loop, hfind]
  simp [eventsOfDay, hempty]

/-- A schedule row for 2024-05-03 with no order items. -/
def rowEmptyDay : ScheduleDay := ⟨dMay3, []⟩

/-- Witness for C8 at a concrete day and data set. -/
theorem get_events_empty_day_skips_witness :
    get_events_loop oEmpty 1 dMay3 [rowEmptyDay] [] ⟨0, 0⟩
      = get_events_loop oEmpty 0 (dMay3 + 1) [rowEmptyDay] [] ⟨0, 0⟩ :=
  get_events_empty_day_skips oEmpty 0 dMay3 [rowEmptyDay] [] ⟨0, 0⟩ rowEmptyDay rfl rfl

/-! ## Range containment (C3) -/

/-- The first matching row returned by `findDay` carries exactly the
searched date. -/
theorem findDay_date {data : List ScheduleDay} {d : Nat} {row : ScheduleDay}
    (h : findDay data d = some row) : row.deliverydate = d := by
  have := List.find?_some h
  simpa using this

/-- Every event built from a day starts and ends on that day's date. -/
theorem mem_eventsOfDay {day : ScheduleDay} {ev : CalendarEvent}
    (h : ev ∈ eventsOfDay day) :
    ev.start = day.deliverydate ∧ ev.«end» = day.deliverydate := by
  simp only [eventsOfDay, List.mem_map] at h
  obtain ⟨item, _, rfl⟩ := h
  exact ⟨rfl, rfl⟩

/-- Loop invariant for `get_events_loop`: starting at day `cur` with
`cur + fuel ≤ fin + 1` and only in-range events accumulated, a normal
return yields only in-range events. -/
theorem get_events_loop_range (o : Server) (lo fin : Nat) :
    ∀ fuel cur data events s evs s2,
      lo ≤ cur → cur + fuel ≤ fin + 1 →
      (∀ ev ∈ events, lo ≤ ev.start ∧ ev.start ≤ fin ∧ ev.«end» = ev.start) →
      get_events_loop o fuel cur data events s = (Except.ok evs, s2) →
      ∀ ev ∈ evs, lo ≤ ev.start ∧ ev.start ≤ fin ∧ ev.«end» = ev.start := by
  intro fuel
  induction fuel with
  | zero =>
    intro cur data events s evs s2 _ _ hinv hrun
    simp only [get_events_loop] at hrun
    injection hrun with h1 _
    injection h1 with h1
    subst h1
    exact hinv
  | succ fuel ih =>
    intro cur data events s evs s2 hlo hle hinv hrun
    have hcur : cur ≤ fin := by omega
    simp only [get_events_loop] at hrun
    cases hfd : findDay data cur with
    | some day =>
      simp only [hfd] at hrun
      refine ih (cur + 1) data _ s evs s2 (by omega) (by omega) ?_ hrun
      intro ev hev
      rcases List.mem_append.mp hev with h | h
      · exact hinv ev h
      · have hd := findDay_date hfd
        have he := mem_eventsOfDay h
        exact ⟨by rw [he.1, hd]; exact hlo, by rw [he.1, hd]; exact hcur, by rw [he.1, he.2]⟩
    | none =>
      simp only [hfd] at hrun
      cases hgd : get_data o cur s with
      | mk r s1 =>
        cases r with
        | error e =>
          simp only [hgd] at hrun
          exact absurd hrun (by simp)
        | ok newRows =>
          simp only [hgd] at hrun
          cases hfd2 : findDay (data ++ newRows) cur with
          | some day =>
            simp only [hfd2] at hrun
            refine ih (cur + 1) (data ++ newRows) _ s1 evs s2 (by omega) (by omega) ?_ hrun
            intro ev hev
            rcases List.mem_append.mp hev with h | h
            · exact hinv ev h
            · have hd := findDay_date hfd2
              have he := mem_eventsOfDay h
              exact ⟨by rw [he.1, hd]; exact hlo, by rw [he.1, hd]; exact hcur,
                by rw [he.1, he.2]⟩
          | none =>
            simp only [hfd2] at hrun
            exact absurd hrun (by simp)

/-- Claim C3: for `start ≤ fin`, every event in a list returned
normally by `get_events (start, fin)` is dated inside the inclusive
interval `[start, fin]` (and is a single-day event). -/
theorem get_events_in_range (o : Server) (start fin : Nat) (s : SessState)
    (hsf : start ≤ fin) (evs : List CalendarEvent) (s2 : SessState)
    (h : get_events o start fin s = (Except.ok evs, s2)) :
    ∀ ev ∈ evs, start ≤ ev.start ∧ ev.start ≤ fin ∧ ev.«end» = ev.start := by
  unfold get_events at h
  cases hgd : get_data o start s with
  | mk r s1 =>
    cases r with
    | error e =>
      simp only [hgd] at h
      exact absurd h (by simp)
    | ok data =>
      simp only [hgd] at h
      exact get_events_loop_range o start fin (fin + 1 - start) start data [] s1 evs s2
        (Nat.le_refl start) (by omega) (by simp) h

/-- The first event of the 2024-05-03 scenario. -/
def evMay3a : CalendarEvent :=
  ⟨dMay3, dMay3, "item one",
   "https://www2.yoshikei-dvlp.co.jp/webodr/apl/10/link1", "menu one", "link1"⟩

/-- The second event of the 2024-05-03 scenario. -/
def evMay3b : CalendarEvent :=
  ⟨dMay3, dMay3, "item two",
   "https://www2.yoshikei-dvlp.co.jp/webodr/apl/10/link2", "menu two", "link2"⟩

/-- Witness for C3: the first event of the C6 scenario lies in the
requested single-day range. -/
theorem get_events_in_range_witness :
    dMay3 ≤ evMay3a.start ∧ evMay3a.start ≤ dMay3 ∧ evMay3a.«end» = evMay3a.start :=
  get_events_in_range oMay3 dMay3 dMay3 ⟨0, 0⟩ (Nat.le_refl dMay3) [evMay3a, evMay3b]
    ⟨0, 1⟩ rfl evMay3a (by simp)

/-! ## Determinism in the server data (C9) -/

/-- When login responses do not depend on the call count, the value
returned by `authenticate` does not depend on the session state. -/
theorem authenticate_fst_const (o : Server)
    (hL : ∀ i j, o.loginResp i = o.loginResp j) (s s' : SessState) :
    (authenticate o s).1 = (authenticate o s').1 := by
  unfold authenticate
  rw [hL s.authCalls s'.authCalls]
  cases hb : (o.loginResp s'.authCalls).body with
  | error e => simp [hb]
  | ok ld => by_cases h : ld.errorcode = "" <;> simp [hb, h]

/-- When schedule responses for `d` do not depend on the call count,
the value returned by `__get_data` does not depend on the session
state. -/
theorem get_data_inner_fst_const (o : Server) (d : Nat)
    (hF : ∀ i j, o.fetchResp i d = o.fetchResp j d) (s s' : SessState) :
    (get_data_inner o d s).1 = (get_data_inner o d s').1 := by
  unfold get_data_inner
  rw [hF s.fetchCalls s'.fetchCalls]
  by_cases h : (o.fetchResp s'.fetchCalls d).historyLen = 0 <;> simp [h]

/-- When the server's responses do not depend on the call counts, the
value returned by `get_data` does not depend on the session state. -/
theorem get_data_fst_const (o : Server) (d : Nat)
    (hF : ∀ i j, o.fetchResp i d = o.fetchResp j d)
    (hL : ∀ i j, o.loginResp i = o.loginResp j) (s s' : SessState) :
    (get_data o d s).1 = (get_data o d s').1 := by
  have h1 := get_data_inner_fst_const o d hF s s'
  unfold get_data
  cases hi : get_data_inner o d s with
  | mk r1 t1 =>
    cases hi' : get_data_inner o d s' with
    | mk r1' t1' =>
      rw [hi, hi'] at h1
      simp only at h1
      subst h1
      cases r1 with
      | ok rows => rfl
      | error e =>
        cases e with
        | invalidAuth =>
          dsimp only
          have h2 := authenticate_fst_const o hL t1 t1'
          cases ha : authenticate o t1 with
          | mk a1 u1 =>
            cases ha' : authenticate o t1' with
            | mk a1' u1' =>
              rw [ha, ha'] at h2
              simp only at h2
              subst h2
              cases a1 with
              | error e2 => rfl
              | ok b =>
                dsimp only
                have h3 := get_data_inner_fst_const o d hF u1 u1'
                cases hj : get_data_inner o d u1 with
                | mk r2 v1 =>
                  cases hj' : get_data_inner o d u1' with
                  | mk r2' v1' =>
                    rw [hj, hj'] at h3
                    simp only at h3
                    subst h3
                    cases r2 with
                    | ok rows => rfl
                    | error e3 => rfl
        | typeError => rfl
        | valueError => rfl
        | jsonError => rfl

/-- When the server's responses do not depend on the call counts, the
event list produced by the day loop does not depend on the session
state. -/
theorem get_events_loop_fst_const (o : Server)
    (hF : ∀ i j x, o.fetchResp i x = o.fetchResp j x)
    (hL : ∀ i j, o.loginResp i = o.loginResp j) :
    ∀ fuel cur data events s s',
      (get_events_loop o fuel cur data events s).1
        = (get_events_loop o fuel cur data events s').1 := by
  intro fuel
  induction fuel with
  | zero => intro cur data events s s'; rfl
  | succ fuel ih =>
    intro cur data events s s'
    simp only [get_events_loop]
    cases hfd : findDay data cur with
    | some day => exact ih (cur + 1) data (events ++ eventsOfDay day) s s'
    | none =>
      have h1 := get_data_fst_const o cur (fun i j => hF i j cur) hL s s'
      cases hg : get_data o cur s with
      | mk r1 t1 =>
        cases hg' : get_data o cur s' with
        | mk r1' t1' =>
          rw [hg, hg'] at h1
          simp only at h1
          subst h1
          cases r1 with
          | error e => rfl
          | ok newRows =>
            dsimp only
            cases hfd2 : findDay (data ++ newRows) cur with
            | some day => exact ih (cur + 1) (data ++ newRows) (events ++ eventsOfDay day) t1 t1'
            | none => rfl

/-- Claim C9: against a server whose responses do not depend on how
many requests were already made (unchanged server data), a second
`get_events` call with the same range — issued from the session state
the first call left behind — returns exactly the same event list. -/
theorem get_events_idempotent (o : Server) (start fin : Nat) (s : SessState)
    (hF : ∀ i j x, o.fetchResp i x = o.fetchResp j x)
    (hL : ∀ i j, o.loginResp i = o.loginResp j) :
    (get_events o start fin ((get_events o start fin s).2)).1
      = (get_events o start fin s).1 := by
  have key : ∀ s1 s2 : SessState,
      (get_events o start fin s1).1 = (get_events o start fin s2).1 := by
    intro s1 s2
    have h1 := get_data_fst_const o start (fun i j => hF i j start) hL s1 s2
    unfold get_events
    cases hg : get_data o start s1 with
    | mk r1 t1 =>
      cases hg' : get_data o start s2 with
      | mk r1' t1' =>
        rw [hg, hg'] at h1
        simp only at h1
        subst h1
        cases r1 with
        | error e => rfl
        | ok data => exact get_events_loop_fst_const o hF hL (fin + 1 - start) start data [] t1 t1'
  exact key _ s

/-- Witness for C9: re-running the single-day request against the
constant server `oMay3` reproduces the same two events. -/
theorem get_events_idempotent_witness :
    (get_events oMay3 dMay3 dMay3 ((get_events oMay3 dMay3 dMay3 ⟨0, 0⟩).2)).1
      = (get_events oMay3 dMay3 dMay3 ⟨0, 0⟩).1 :=
  get_events_idempotent oMay3 dMay3 dMay3 ⟨0, 0⟩ (fun _ _ _ => rfl) (fun _ _ => rfl)

/-! ## Date-string normalisation (C7) -/

/-- A list of length four is exactly a four-element list. -/
theorem length_eq_four {α : Type _} {l : List α} :
    l.length = 4 ↔ ∃ a b c d, l = [a, b, c, d] := by
  rcases l with _ | ⟨a, _ | ⟨b, _ | ⟨c, _ | ⟨d, l⟩⟩⟩⟩ <;> simp

/-- `.*` consumes a whole newline-free suffix. -/
theorem dropWhile_no_newline (t : List Char) (ht : '\n' ∉ t) :
    t.dropWhile (fun c => c ≠ '\n') = [] := by
  refine List.dropWhile_eq_nil_iff.mpr ?_
  intro x hx
  have hne : x ≠ '\n' := fun h => ht (h ▸ hx)
  simpa using hne

/-- Claim C7: any `deliverydate` string of the shape
`YYYY/MM/DD<space><newline-free trailing text>` (four, two and two
digits) whose digit groups form a valid calendar date is normalised by
`get_data` to exactly that date, the trailing text being discarded. -/
theorem normalize_deliverydate_spec (ys ms ds t : List Char)
    (hylen : ys.length = 4) (hmlen : ms.length = 2) (hdlen : ds.length = 2)
    (hyd : ∀ c ∈ ys, c.isDigit = true) (hmd : ∀ c ∈ ms, c.isDigit = true)
    (hdd : ∀ c ∈ ds, c.isDigit = true) (ht : '\n' ∉ t)
    (hval : validDate (parseDigits ys) (parseDigits ms) (parseDigits ds) = true) :
    normalize_deliverydate ⟨ys ++ '/' :: (ms ++ '/' :: (ds ++ ' ' :: t))⟩
      = Except.ok (toOrdinal (parseDigits ys) (parseDigits ms) (parseDigits ds)) := by
  obtain ⟨y1, y2, y3, y4, rfl⟩ := length_eq_four.mp hylen
  obtain ⟨m1, m2, rfl⟩ := List.length_eq_two.mp hmlen
  obtain ⟨e1, e2, rfl⟩ := List.length_eq_two.mp hdlen
  have hy1 : y1.isDigit = true := hyd y1 (by simp)
  have hy2 : y2.isDigit = true := hyd y2 (by simp)
  have hy3 : y3.isDigit = true := hyd y3 (by simp)
  have hy4 : y4.isDigit = true := hyd y4 (by simp)
  have hm1 : m1.isDigit = true := hmd m1 (by simp)
  have hm2 : m2.isDigit = true := hmd m2 (by simp)
  have he1 : e1.isDigit = true := hdd e1 (by simp)
  have he2 : e2.isDigit = true := hdd e2 (by simp)
  have hslash : Char.isDigit '/' = false := rfl
  have hspace : Char.isDigit ' ' = false := rfl
  have hdropT := dropWhile_no_newline t ht
  have hmatch : matchDatePat
      (y1 :: y2 :: y3 :: y4 :: '/' :: m1 :: m2 :: '/' :: e1 :: e2 :: ' ' :: t)
      = some ([y1, y2, y3, y4], [m1, m2], [e1, e2], []) := by
    simp [matchDatePat, expectChar, List.takeWhile_cons, List.dropWhile_cons,
      hy1, hy2, hy3, hy4, hm1, hm2, he1, he2, hslash, hspace, hdropT]
    intro x hx h
    exact ht (h ▸ hx)
  have haux : reSubDateAux
      (y1 :: y2 :: y3 :: y4 :: '/' :: m1 :: m2 :: '/' :: e1 :: e2 :: ' ' :: t)
      = some (y1 :: y2 :: y3 :: y4 :: '-' :: m1 :: m2 :: '-' :: e1 :: e2 :: []) := by
    simp [reSubDateAux, hmatch]
  simp only [List.cons_append, List.nil_append] at haux ⊢
  simp [normalize_deliverydate, re_sub_date, haux, date_fromisoformat,
    hy1, hy2, hy3, hy4, hm1, hm2, he1, he2, hval]

/-- Witness for C7: the server string `"2024/05/03 00:00:00"`
normalises to the date 2024-05-03 (ordinal `toOrdinal 2024 5 3`). -/
theorem normalize_deliverydate_spec_witness :
    normalize_deliverydate "2024/05/03 00:00:00" = Except.ok (toOrdinal 2024 5 3) := by
  have h := normalize_deliverydate_spec ['2', '0', '2', '4'] ['0', '5'] ['0', '3']
    ['0', '0', ':', '0', '0', ':', '0', '0'] rfl rfl rfl (by decide) (by decide)
    (by decide) (by decide) (by decide)
  exact h

end Yoshikei
